import Mathlib

/-!
Verification of the Opportunity Pipeline Engine of the dashboard repository.

The definitions below are a shallow embedding of the JavaScript class
`ExecutivePipelineManager` (file `src/unnamed/part_001`, lines 782-1732).
Dates (`deadline`, `created_at`) are modelled as `Nat` timestamps, JS numbers
used by comparators as `Int`, missing JS fields as `Option`.  `Array.prototype.sort`
is modelled as a stable comparison sort (insertion sort) driven by the exact
JS comparator; for consistent comparators this is the order ECMA-262 mandates
(stable since ES2019).  The deadline comparator of the source is not
consistent (it answers 1 for both argument orders of two deadline-less
records), and ECMA-262 leaves the sort order for inconsistent comparators
implementation-defined, so no theorem here relies on the model's behaviour on
that comparator.
-/

namespace Pipeline

/-- Opportunity record, the shape produced by `loadPipelineData` and consumed by
`renderOpportunities` / `updateOpportunityStatus` (`src/unnamed/part_001`).
Missing JS fields are `Option.none` (for `type`, the source uses the falsy
default `'executive'`, modelled by the empty string). -/
structure Opp where
  id : Nat
  type : String
  title : String
  company : String
  location : Option String
  compensation_range : Option String
  status : String
  priority_level : Option String
  ai_match_score : Option Int
  deadline : Option Nat
  created_at : Option Nat
deriving DecidableEq, Repr

/-- Speaking-source record shape returned by `GET /api/speaking/opportunities`
(fields `organizer`, `speaking_fee`), as consumed by `loadPipelineData`. -/
structure SpeakingOpp where
  id : Nat
  title : String
  organizer : String
  speaking_fee : Option String
  status : String
  location : Option String
  priority_level : Option String
  ai_match_score : Option Int
  deadline : Option Nat
  created_at : Option Nat
deriving DecidableEq, Repr

/-- Projection of a speaking-source record into the common shape, mirroring the
spread in `loadPipelineData` (part_001 lines 857-864):
`{...opp, type:'speaking', ai_match_score: opp.ai_match_score || 0,
compensation_range: opp.speaking_fee, title: opp.title, company: opp.organizer}`. -/
def speakingToOpp (s : SpeakingOpp) : Opp :=
  { id := s.id
    type := "speaking"
    title := s.title
    company := s.organizer
    location := s.location
    compensation_range := s.speaking_fee
    status := s.status
    priority_level := s.priority_level
    ai_match_score := some (s.ai_match_score.getD 0)
    deadline := s.deadline
    created_at := s.created_at }

/-- Merge step of `loadPipelineData` (part_001 lines 844-875): the generic
collection is kept as is and the mapped speaking collection is appended:
`this.opportunities = [...this.opportunities, ...speakingAsExec]`. -/
def loadPipelineData (exec : List Opp) (speaking : List SpeakingOpp) : List Opp :=
  exec ++ speaking.map speakingToOpp

/-- JS `opp.type || 'executive'` as used when matching records by `(id, type)`. -/
def oppType (o : Opp) : String :=
  if o.type = "" then "executive" else o.type

/-- Resolution of the UI-only `closed` bucket to a persisted status, mirroring
part_001 lines 1083-1086: `if (newStatus === 'closed') actualStatus = 'rejected'`. -/
def resolveTargetStatus (newStatus : String) : String :=
  if newStatus = "closed" then "rejected" else newStatus

/-- Local optimistic update in `updateOpportunityStatus`: `findIndex` on
`opp.id == id && (opp.type || 'executive') === type` followed by a status
assignment on the first match (part_001 lines 1097-1103). -/
def updateFirstStatus (p : Opp → Bool) (st : String) : List Opp → List Opp
  | [] => []
  | o :: rest => if p o then { o with status := st } :: rest
                 else o :: updateFirstStatus p st rest

/-- Outcome of a status-transition request: the record list after the call, the
endpoint and status of the issued PUT, the notification raised, and whether a
full reload (`loadPipelineData`) was forced. -/
structure UpdateResult where
  opportunities : List Opp
  endpoint : String
  sentStatus : String
  notification : String × String
  reloaded : Bool
deriving DecidableEq, Repr

/-- Shallow embedding of `updateOpportunityStatus(id, type, newStatus)`
(part_001 lines 1075-1113).  The PUT is issued first with the resolved status;
`writeOk` is the outcome of that persistence write.  On success the local list
is patched at the first matching record and no reload happens; on failure the
`catch` block leaves the local list untouched, raises the error notification
and forces a reload. -/
def updateOpportunityStatus (opps : List Opp) (id : Nat) (ty : String)
    (newStatus : String) (writeOk : Bool) : UpdateResult :=
  let actualStatus := resolveTargetStatus newStatus
  let endpoint :=
    if ty = "speaking" then "/api/speaking/opportunities/" ++ toString id
    else "/api/executive/opportunities/" ++ toString id ++ "/status"
  if writeOk then
    { opportunities :=
        updateFirstStatus (fun o => o.id == id && oppType o == ty) actualStatus opps
      endpoint := endpoint
      sentStatus := actualStatus
      notification := ("Status updated successfully", "success")
      reloaded := false }
  else
    { opportunities := opps
      endpoint := endpoint
      sentStatus := actualStatus
      notification := ("Failed to update status", "error")
      reloaded := true }

/-- Outcome of `saveOpportunity`: the HTTP method and endpoint used, whether the
AI scoring endpoint was called, and the `ai_match_score` put in the request
body (`none` when the form data carries no score, as on the edit path). -/
structure SaveAction where
  method : String
  endpoint : String
  scoringInvoked : Bool
  payloadScore : Option Int
deriving DecidableEq, Repr

/-- Shallow embedding of the network behaviour of `saveOpportunity`
(part_001 lines 1157-1225).  `editing` is `this.editingOpportunity`;
`scoreResult` is the outcome of the `/api/ai-matching/score-opportunity` call
(`none` when that call throws, in which case the inner catch sets the score
to 50).  On the edit path the scoring block is never reached. -/
def saveOpportunity (editing : Option Opp) (formType : String)
    (scoreResult : Option Int) : SaveAction :=
  match editing with
  | some opp =>
      { method := "PUT"
        endpoint :=
          if opp.type = "speaking" then "/api/speaking/opportunities/" ++ toString opp.id
          else "/api/executive/opportunities/" ++ toString opp.id
        scoringInvoked := false
        payloadScore := none }
  | none =>
      { method := "POST"
        endpoint :=
          if formType = "speaking" then "/api/speaking/opportunities"
          else "/api/executive/opportunities"
        scoringInvoked := true
        payloadScore := some (match scoreResult with | some s => s | none => 50) }

/-- Keys of the `statusGroups` object literal in `renderOpportunities`
(part_001 lines 930-937); `statusGroups[opp.status]` is truthy exactly for
these six strings. -/
def bucketNames : List String :=
  ["prospect", "applied", "interview_stage", "under_consideration",
   "offer_received", "closed"]

/-- The six kanban buckets built by `renderOpportunities`. -/
structure StatusGroups where
  prospect : List Opp
  applied : List Opp
  interview_stage : List Opp
  under_consideration : List Opp
  offer_received : List Opp
  closed : List Opp
deriving DecidableEq, Repr

/-- The initial empty `statusGroups` object. -/
def emptyGroups : StatusGroups := ⟨[], [], [], [], [], []⟩

/-- Test for the two terminal statuses grouped into the `closed` column
(part_001 line 940). -/
def isTerminal (s : String) : Bool := s == "accepted" || s == "rejected"

/-- `statusGroups[opp.status].push(opp)` dispatched over the six keys. -/
def pushBucket (g : StatusGroups) (s : String) (o : Opp) : StatusGroups :=
  if s == "prospect" then { g with prospect := g.prospect ++ [o] }
  else if s == "applied" then { g with applied := g.applied ++ [o] }
  else if s == "interview_stage" then
    { g with interview_stage := g.interview_stage ++ [o] }
  else if s == "under_consideration" then
    { g with under_consideration := g.under_consideration ++ [o] }
  else if s == "offer_received" then
    { g with offer_received := g.offer_received ++ [o] }
  else if s == "closed" then { g with closed := g.closed ++ [o] }
  else g

/-- One iteration of the grouping loop of `renderOpportunities` (part_001
lines 939-947): terminal statuses go to `closed`, statuses that are keys of
the group object go to their own bucket, anything else goes to `prospect`. -/
def assignToGroup (g : StatusGroups) (o : Opp) : StatusGroups :=
  if isTerminal o.status then { g with closed := g.closed ++ [o] }
  else if bucketNames.contains o.status then pushBucket g o.status o
  else { g with prospect := g.prospect ++ [o] }

/-- Kanban grouping of `renderOpportunities`: fold of the grouping loop over
the filtered, sorted record list. -/
def groupByStatus (l : List Opp) : StatusGroups := l.foldl assignToGroup emptyGroups

/-- Concatenation of the six buckets, used to state the partition property. -/
def allBuckets (g : StatusGroups) : List Opp :=
  g.prospect ++ g.applied ++ g.interview_stage ++ g.under_consideration ++
    g.offer_received ++ g.closed

/-- All status strings that do not fall through to the default `prospect`
branch of the grouping loop: the six object keys plus the two terminal
statuses. -/
def knownStatuses : List String :=
  ["prospect", "applied", "interview_stage", "under_consideration",
   "offer_received", "accepted", "rejected", "closed"]

/-- Membership predicate of the `prospect` bucket: explicit `prospect` status
or any status that is neither terminal nor a key of the group object. -/
def pProspect (o : Opp) : Bool :=
  o.status == "prospect" || !(knownStatuses.contains o.status)

/-- Membership predicate of the `applied` bucket. -/
def pApplied (o : Opp) : Bool := o.status == "applied"

/-- Membership predicate of the `interview_stage` bucket. -/
def pInterview (o : Opp) : Bool := o.status == "interview_stage"

/-- Membership predicate of the `under_consideration` bucket. -/
def pUnder (o : Opp) : Bool := o.status == "under_consideration"

/-- Membership predicate of the `offer_received` bucket. -/
def pOffer (o : Opp) : Bool := o.status == "offer_received"

/-- Membership predicate of the `closed` bucket: the two terminal statuses,
and also the literal status `closed` because `statusGroups["closed"]` is
truthy in the source. -/
def pClosed (o : Opp) : Bool :=
  o.status == "accepted" || o.status == "rejected" || o.status == "closed"

/-- Concrete record whose persisted status is the literal string `closed`,
which is not a working status and not a terminal status. -/
def oClosedStatus : Opp :=
  { id := 1, type := "executive_position", title := "Board seat",
    company := "Acme", location := none, compensation_range := none,
    status := "closed", priority_level := some "medium",
    ai_match_score := some 80, deadline := none, created_at := some 100 }

/-- Model of JS `Array.prototype.sort(comparator)` as a stable comparison
sort: insertion sort keeping input order whenever the comparator does not
demand a strict swap.  For a consistent comparator this is exactly the
ECMA-262 sort order (stable since ES2019).  For an inconsistent comparator
ECMA-262 makes the order implementation-defined; this model then fixes one
arbitrary resolution, and no theorem should rest on it there. -/
def jsSort {α : Type} (cmp : α → α → Int) (l : List α) : List α :=
  l.insertionSort (fun a b => cmp a b ≤ 0)

/-- Comparator of the `ai_match_score` sort branch (part_001 line 915):
`(b.ai_match_score || 0) - (a.ai_match_score || 0)`. -/
def cmpScore (a b : Opp) : Int :=
  b.ai_match_score.getD 0 - a.ai_match_score.getD 0

/-- Comparator of the `created_at` sort branch (part_001 line 917):
`new Date(b.created_at || Date.now()) - new Date(a.created_at || Date.now())`,
with `now` the current timestamp. -/
def cmpCreated (now : Nat) (a b : Opp) : Int :=
  (b.created_at.getD now : Int) - (a.created_at.getD now : Int)

/-- Comparator of the `deadline` sort branch (part_001 lines 918-921):
`if (!a.deadline) return 1; if (!b.deadline) return -1;` then date
difference.  Note the comparator is asymmetric when both deadlines are
missing: it returns 1 for both argument orders. -/
def cmpDeadline (a b : Opp) : Int :=
  match a.deadline with
  | none => 1
  | some da =>
    match b.deadline with
    | none => -1
    | some db => (da : Int) - (db : Int)

/-- Rank map of the `priority_level` sort branch (part_001 line 923):
`{critical: 4, high: 3, medium: 2, low: 1}`, unmapped values 0. -/
def priorityRank (p : Option String) : Int :=
  match p with
  | some s =>
    if s = "critical" then 4
    else if s = "high" then 3
    else if s = "medium" then 2
    else if s = "low" then 1
    else 0
  | none => 0

/-- Comparator of the `priority_level` sort branch (part_001 line 924). -/
def cmpPriority (a b : Opp) : Int :=
  priorityRank b.priority_level - priorityRank a.priority_level

/-- The comparator selected by `this.currentSort` in `renderOpportunities`
(part_001 lines 913-927); an unrecognized sort key compares everything
equal (`return 0`). -/
def cmpFor (sortKey : String) (now : Nat) (a b : Opp) : Int :=
  if sortKey = "ai_match_score" then cmpScore a b
  else if sortKey = "created_at" then cmpCreated now a b
  else if sortKey = "deadline" then cmpDeadline a b
  else if sortKey = "priority_level" then cmpPriority a b
  else 0

/-- The sort step of `renderOpportunities` for a given sort key. -/
def sortOpportunities (sortKey : String) (now : Nat) (l : List Opp) : List Opp :=
  jsSort (cmpFor sortKey now) l

/-- The mutable fields of `ExecutivePipelineManager` that `renderOpportunities`
reads and writes. -/
structure PMState where
  opportunities : List Opp
  currentFilter : String
  currentSort : String
deriving Repr

/-- Shallow embedding of `renderOpportunities` (part_001 lines 905-969),
returning the state after the call and the kanban groups that get rendered.
When `currentFilter` is `"all"`, `filteredOpportunities` is the very array
`this.opportunities` (`let filteredOpportunities = this.opportunities`), so
the in-place `Array.prototype.sort` permutes the stored list itself; for any
other filter, `Array.prototype.filter` allocates a fresh array and the stored
list is untouched. -/
def renderOpportunities (st : PMState) (now : Nat) : PMState × StatusGroups :=
  if st.currentFilter = "all" then
    let sorted := jsSort (cmpFor st.currentSort now) st.opportunities
    ({ st with opportunities := sorted }, groupByStatus sorted)
  else
    let sorted := jsSort (cmpFor st.currentSort now)
      (st.opportunities.filter (fun o => o.type == st.currentFilter))
    (st, groupByStatus sorted)

/-- Count of records with an exact status, as used by `updateSummaryCards`. -/
def countStatus (l : List Opp) (st : String) : Nat :=
  (l.filter (fun o => o.status == st)).length

/-- JS `Math.round(a / b)` for nonnegative exact rationals `a / b`:
`floor(a / b + 1 / 2)`. -/
def natRoundDiv (a b : Nat) : Nat := (2 * a + b) / (2 * b)

/-- The four summary cards computed by `updateSummaryCards`. -/
structure SummaryCards where
  total : Nat
  activeInterviews : Nat
  pendingOffers : Nat
  successRate : Nat
deriving DecidableEq, Repr

/-- Shallow embedding of `updateSummaryCards` (part_001 lines 877-888).  The
success-rate card is `Math.round((accepted / total) * 100)` with `total` the
length of the whole merged record list, and 0 when there are no records. -/
def updateSummaryCards (l : List Opp) : SummaryCards :=
  { total := l.length
    activeInterviews := countStatus l "interview_stage"
    pendingOffers := countStatus l "offer_received"
    successRate :=
      if 0 < l.length then natRoundDiv (100 * countStatus l "accepted") l.length
      else 0 }

/-- Modelled from the spec's words, for comparison with the code: overall
conversion = count(accepted) / count(records that have left the prospect
stage), 0 if that denominator is 0, rendered as a rounded percentage. -/
def specOverallConversion (l : List Opp) : Nat :=
  let leftProspect := (l.filter (fun o => !(o.status == "prospect"))).length
  if 0 < leftProspect then natRoundDiv (100 * countStatus l "accepted") leftProspect
  else 0

/-- Record builder used for concrete test inputs. -/
def mkOpp (i : Nat) (st : String) : Opp :=
  { id := i, type := "executive_position", title := "T", company := "C",
    location := none, compensation_range := none, status := st,
    priority_level := some "medium", ai_match_score := some 70,
    deadline := none, created_at := some i }

/-- Ten records realizing the spec's conversion scenario: 4 still `prospect`,
6 that left the prospect stage (3 `applied`, 2 `interview_stage`,
1 `accepted`). -/
def scenarioTen : List Opp :=
  [mkOpp 1 "prospect", mkOpp 2 "prospect", mkOpp 3 "prospect",
   mkOpp 4 "prospect", mkOpp 5 "applied", mkOpp 6 "applied",
   mkOpp 7 "applied", mkOpp 8 "interview_stage", mkOpp 9 "interview_stage",
   mkOpp 10 "accepted"]

end Pipeline

open Pipeline

/-- Every record in the output of `updateFirstStatus` either carries the new
status or is an unchanged record of the input list. -/
theorem updateFirstStatus_mem (p : Opp → Bool) (st : String) :
    ∀ (l : List Opp) (x : Opp), x ∈ updateFirstStatus p st l → x.status = st ∨ x ∈ l := by
  intro l
  induction l with
  | nil => intro x hx; cases hx
  | cons o rest ih =>
    intro x hx
    simp only [updateFirstStatus] at hx
    by_cases hp : p o = true
    · rw [if_pos hp] at hx
      rcases List.mem_cons.mp hx with h | h
      · exact Or.inl (by rw [h])
      · exact Or.inr (List.mem_cons_of_mem o h)
    · rw [if_neg hp] at hx
      rcases List.mem_cons.mp hx with h | h
      · exact Or.inr (by rw [h]; exact List.mem_cons_self o rest)
      · rcases ih x h with h2 | h2
        · exact Or.inl h2
        · exact Or.inr (List.mem_cons_of_mem o h2)

/-- C2: a status-transition request targeting the `closed` bucket persists and
locally records exactly the status `rejected`, never `accepted`: the PUT body
carries `rejected` whatever the write outcome, and after a successful write the
local list is the input list with the first matching record's status set to
`rejected`; every record of the resulting list either kept its old value or
now reads `rejected`. -/
theorem closed_bucket_resolves_to_rejected (opps : List Opp) (id : Nat)
    (ty : String) (writeOk : Bool) :
    (updateOpportunityStatus opps id ty "closed" writeOk).sentStatus = "rejected" ∧
    (updateOpportunityStatus opps id ty "closed" writeOk).sentStatus ≠ "accepted" ∧
    (updateOpportunityStatus opps id ty "closed" true).opportunities =
      updateFirstStatus (fun o => o.id == id && oppType o == ty) "rejected" opps ∧
    ((updateOpportunityStatus opps id ty "closed" true).opportunities.all
      (fun o => o.status == "rejected" || opps.contains o)) = true := by
  refine ⟨?_, ?_, ?_, ?_⟩
  · cases writeOk <;> rfl
  · cases writeOk <;> simp [updateOpportunityStatus, resolveTargetStatus]
  · rfl
  · rw [List.all_eq_true]
    intro x hx
    have hx2 : x ∈ updateFirstStatus (fun o => o.id == id && oppType o == ty)
        "rejected" opps := by
      simpa [updateOpportunityStatus] using hx
    rcases updateFirstStatus_mem _ _ _ x hx2 with h | h
    · simp [h]
    · simp [List.contains, List.elem_eq_mem, h]

/-- C5: when the persistence write of a status transition fails, the local
record list is left exactly as it was before the request, the failure
notification is raised, and a full reload from the repository layer is
forced. -/
theorem transition_failure_rolls_back (opps : List Opp) (id : Nat)
    (ty : String) (newStatus : String) :
    (updateOpportunityStatus opps id ty newStatus false).opportunities = opps ∧
    (updateOpportunityStatus opps id ty newStatus false).notification =
      ("Failed to update status", "error") ∧
    (updateOpportunityStatus opps id ty newStatus false).reloaded = true := by
  exact ⟨rfl, rfl, rfl⟩

/-- C6: on the creation path, a failed external scoring call makes the created
record's `ai_match_score` exactly 50, and the scoring endpoint is called only
on the creation path — the edit path never invokes it and sends no score. -/
theorem scoring_failure_defaults_to_50 (formType : String) :
    (saveOpportunity none formType none).payloadScore = some 50 ∧
    (saveOpportunity none formType none).scoringInvoked = true ∧
    ∀ (opp : Opp) (scoreResult : Option Int),
      (saveOpportunity (some opp) formType scoreResult).scoringInvoked = false ∧
      (saveOpportunity (some opp) formType scoreResult).payloadScore = none := by
  exact ⟨rfl, rfl, fun opp scoreResult => ⟨rfl, rfl⟩⟩

/-- C3: the merge layer tags every projected speaking record with
`type = "speaking"`, copies `organizer` into the organization field (`company`)
and `speaking_fee` into the compensation field (`compensation_range`), and the
merged list is the plain concatenation of the generic collection with the
projected speaking collection — no deduplication. -/
theorem merge_projects_speaking_fields (s : SpeakingOpp)
    (exec : List Opp) (speaking : List SpeakingOpp) :
    (speakingToOpp s).type = "speaking" ∧
    (speakingToOpp s).company = s.organizer ∧
    (speakingToOpp s).compensation_range = s.speaking_fee ∧
    (speakingToOpp s).title = s.title ∧
    loadPipelineData exec speaking = exec ++ speaking.map speakingToOpp ∧
    (loadPipelineData exec speaking).length = exec.length + speaking.length := by
  refine ⟨rfl, rfl, rfl, rfl, rfl, ?_⟩
  simp [loadPipelineData]

/-- Per-record characterization of one grouping step: each bucket of
`assignToGroup g o` extends the corresponding bucket of `g` by `[o]` exactly
when the bucket's membership predicate holds for `o`. -/
theorem assignToGroup_buckets (g : StatusGroups) (o : Opp) :
    (assignToGroup g o).prospect = g.prospect ++ (if pProspect o then [o] else []) ∧
    (assignToGroup g o).applied = g.applied ++ (if pApplied o then [o] else []) ∧
    (assignToGroup g o).interview_stage =
      g.interview_stage ++ (if pInterview o then [o] else []) ∧
    (assignToGroup g o).under_consideration =
      g.under_consideration ++ (if pUnder o then [o] else []) ∧
    (assignToGroup g o).offer_received =
      g.offer_received ++ (if pOffer o then [o] else []) ∧
    (assignToGroup g o).closed = g.closed ++ (if pClosed o then [o] else []) := by
  by_cases h1 : o.status = "accepted"
  · simp [assignToGroup, pushBucket, isTerminal, bucketNames, knownStatuses,
      pProspect, pApplied, pInterview, pUnder, pOffer, pClosed, h1]
  by_cases h2 : o.status = "rejected"
  · simp [assignToGroup, pushBucket, isTerminal, bucketNames, knownStatuses,
      pProspect, pApplied, pInterview, pUnder, pOffer, pClosed, h2]
  by_cases h3 : o.status = "prospect"
  · simp [assignToGroup, pushBucket, isTerminal, bucketNames, knownStatuses,
      pProspect, pApplied, pInterview, pUnder, pOffer, pClosed, h3]
  by_cases h4 : o.status = "applied"
  · simp [assignToGroup, pushBucket, isTerminal, bucketNames, knownStatuses,
      pProspect, pApplied, pInterview, pUnder, pOffer, pClosed, h4]
  by_cases h5 : o.status = "interview_stage"
  · simp [assignToGroup, pushBucket, isTerminal, bucketNames, knownStatuses,
      pProspect, pApplied, pInterview, pUnder, pOffer, pClosed, h5]
  by_cases h6 : o.status = "under_consideration"
  · simp [assignToGroup, pushBucket, isTerminal, bucketNames, knownStatuses,
      pProspect, pApplied, pInterview, pUnder, pOffer, pClosed, h6]
  by_cases h7 : o.status = "offer_received"
  · simp [assignToGroup, pushBucket, isTerminal, bucketNames, knownStatuses,
      pProspect, pApplied, pInterview, pUnder, pOffer, pClosed, h7]
  by_cases h8 : o.status = "closed"
  · simp [assignToGroup, pushBucket, isTerminal, bucketNames, knownStatuses,
      pProspect, pApplied, pInterview, pUnder, pOffer, pClosed, h8]
  · simp [assignToGroup, pushBucket, isTerminal, bucketNames, knownStatuses,
      pProspect, pApplied, pInterview, pUnder, pOffer, pClosed,
      h1, h2, h3, h4, h5, h6, h7, h8]

/-- Bucket-by-bucket characterization of the grouping fold: each bucket of the
fold is the starting bucket followed by the filter of the input list through
the bucket's membership predicate. -/
theorem foldl_assign_buckets :
    ∀ (l : List Opp) (g : StatusGroups),
      (List.foldl assignToGroup g l).prospect = g.prospect ++ l.filter pProspect ∧
      (List.foldl assignToGroup g l).applied = g.applied ++ l.filter pApplied ∧
      (List.foldl assignToGroup g l).interview_stage =
        g.interview_stage ++ l.filter pInterview ∧
      (List.foldl assignToGroup g l).under_consideration =
        g.under_consideration ++ l.filter pUnder ∧
      (List.foldl assignToGroup g l).offer_received =
        g.offer_received ++ l.filter pOffer ∧
      (List.foldl assignToGroup g l).closed = g.closed ++ l.filter pClosed := by
  intro l
  induction l with
  | nil => intro g; simp
  | cons x t ih =>
    intro g
    obtain ⟨hp, ha, hi, hu, ho, hc⟩ := assignToGroup_buckets g x
    obtain ⟨ip, ia, ii, iu, io, ic⟩ := ih (assignToGroup g x)
    refine ⟨?_, ?_, ?_, ?_, ?_, ?_⟩
    · rw [List.foldl_cons, ip, hp, List.filter_cons]
      by_cases hx : pProspect x = true <;> simp [hx]
    · rw [List.foldl_cons, ia, ha, List.filter_cons]
      by_cases hx : pApplied x = true <;> simp [hx]
    · rw [List.foldl_cons, ii, hi, List.filter_cons]
      by_cases hx : pInterview x = true <;> simp [hx]
    · rw [List.foldl_cons, iu, hu, List.filter_cons]
      by_cases hx : pUnder x = true <;> simp [hx]
    · rw [List.foldl_cons, io, ho, List.filter_cons]
      by_cases hx : pOffer x = true <;> simp [hx]
    · rw [List.foldl_cons, ic, hc, List.filter_cons]
      by_cases hx : pClosed x = true <;> simp [hx]

/-- The six bucket predicates hold for exactly one bucket per record, stated
as a count equation over the singleton contributions. -/
theorem count_one_bucket (o a : Opp) :
    List.count a (if pProspect o then [o] else []) +
    List.count a (if pApplied o then [o] else []) +
    List.count a (if pInterview o then [o] else []) +
    List.count a (if pUnder o then [o] else []) +
    List.count a (if pOffer o then [o] else []) +
    List.count a (if pClosed o then [o] else []) = List.count a [o] := by
  by_cases h1 : o.status = "accepted"
  · simp [pProspect, pApplied, pInterview, pUnder, pOffer, pClosed,
      knownStatuses, h1]
  by_cases h2 : o.status = "rejected"
  · simp [pProspect, pApplied, pInterview, pUnder, pOffer, pClosed,
      knownStatuses, h2]
  by_cases h3 : o.status = "prospect"
  · simp [pProspect, pApplied, pInterview, pUnder, pOffer, pClosed,
      knownStatuses, h3]
  by_cases h4 : o.status = "applied"
  · simp [pProspect, pApplied, pInterview, pUnder, pOffer, pClosed,
      knownStatuses, h4]
  by_cases h5 : o.status = "interview_stage"
  · simp [pProspect, pApplied, pInterview, pUnder, pOffer, pClosed,
      knownStatuses, h5]
  by_cases h6 : o.status = "under_consideration"
  · simp [pProspect, pApplied, pInterview, pUnder, pOffer, pClosed,
      knownStatuses, h6]
  by_cases h7 : o.status = "offer_received"
  · simp [pProspect, pApplied, pInterview, pUnder, pOffer, pClosed,
      knownStatuses, h7]
  by_cases h8 : o.status = "closed"
  · simp [pProspect, pApplied, pInterview, pUnder, pOffer, pClosed,
      knownStatuses, h8]
  · simp [pProspect, pApplied, pInterview, pUnder, pOffer, pClosed,
      knownStatuses, h1, h2, h3, h4, h5, h6, h7, h8]

/-- One grouping step inserts its record exactly once across the six buckets. -/
theorem allBuckets_assign_perm (g : StatusGroups) (o : Opp) :
    (allBuckets (assignToGroup g o)).Perm (allBuckets g ++ [o]) := by
  obtain ⟨hp, ha, hi, hu, ho, hc⟩ := assignToGroup_buckets g o
  refine List.perm_iff_count.mpr (fun a => ?_)
  have hx := count_one_bucket o a
  simp only [allBuckets, hp, ha, hi, hu, ho, hc, List.count_append]
  omega

/-- The grouping fold inserts every record of the input exactly once. -/
theorem allBuckets_foldl_perm :
    ∀ (l : List Opp) (g : StatusGroups),
      (allBuckets (List.foldl assignToGroup g l)).Perm (allBuckets g ++ l) := by
  intro l
  induction l with
  | nil => intro g; simp
  | cons x t ih =>
    intro g
    refine ((ih (assignToGroup g x)).trans
      ((allBuckets_assign_perm g x).append_right t)).trans ?_
    simp

/-- C1: kanban grouping partitions any record list exactly once across the six
buckets: the concatenation of the buckets is a permutation of the input (so no
record is dropped and none is duplicated across buckets), and the bucket sizes
sum to the length of the input list. -/
theorem kanban_grouping_partitions (l : List Opp) :
    (allBuckets (groupByStatus l)).Perm l ∧
    (groupByStatus l).prospect.length + (groupByStatus l).applied.length +
      (groupByStatus l).interview_stage.length +
      (groupByStatus l).under_consideration.length +
      (groupByStatus l).offer_received.length +
      (groupByStatus l).closed.length = l.length := by
  have hperm : (allBuckets (groupByStatus l)).Perm l := by
    have h := allBuckets_foldl_perm l emptyGroups
    simpa [groupByStatus, allBuckets, emptyGroups] using h
  refine ⟨hperm, ?_⟩
  have hlen := hperm.length_eq
  simp only [allBuckets, List.length_append] at hlen
  omega

/-- C4 counterexample: a record whose persisted status is the literal string
`closed` — not one of the five working statuses and neither `accepted` nor
`rejected` — is placed in the `closed` bucket, not in `prospect`, because
`statusGroups["closed"]` is a truthy key of the group object. -/
theorem kanban_closed_status_counterexample :
    oClosedStatus.status = "closed" ∧
    oClosedStatus.status ≠ "prospect" ∧ oClosedStatus.status ≠ "applied" ∧
    oClosedStatus.status ≠ "interview_stage" ∧
    oClosedStatus.status ≠ "under_consideration" ∧
    oClosedStatus.status ≠ "offer_received" ∧
    oClosedStatus.status ≠ "accepted" ∧ oClosedStatus.status ≠ "rejected" ∧
    (groupByStatus [oClosedStatus]).closed = [oClosedStatus] ∧
    (groupByStatus [oClosedStatus]).prospect = [] := by
  refine ⟨rfl, by decide, by decide, by decide, by decide, by decide,
    by decide, by decide, rfl, rfl⟩

/-- C4 (amended): the `closed` bucket collects exactly the records whose status
is `accepted`, `rejected`, or the literal string `closed`; a record whose
status is none of those and not one of the five working statuses falls into
the `prospect` bucket (which holds exactly the `prospect`-status records plus
all records with unrecognized statuses). -/
theorem kanban_default_bucket_amended (l : List Opp) :
    (groupByStatus l).closed = l.filter pClosed ∧
    (groupByStatus l).prospect = l.filter pProspect ∧
    (groupByStatus l).applied = l.filter pApplied ∧
    (groupByStatus l).interview_stage = l.filter pInterview ∧
    (groupByStatus l).under_consideration = l.filter pUnder ∧
    (groupByStatus l).offer_received = l.filter pOffer := by
  obtain ⟨hp, ha, hi, hu, ho, hc⟩ := foldl_assign_buckets l emptyGroups
  exact ⟨by simpa [groupByStatus, emptyGroups] using hc,
    by simpa [groupByStatus, emptyGroups] using hp,
    by simpa [groupByStatus, emptyGroups] using ha,
    by simpa [groupByStatus, emptyGroups] using hi,
    by simpa [groupByStatus, emptyGroups] using hu,
    by simpa [groupByStatus, emptyGroups] using ho⟩

/-- The sort model returns a permutation of its input. -/
theorem jsSort_perm {α : Type} (cmp : α → α → Int) (l : List α) :
    (jsSort cmp l).Perm l :=
  List.perm_insertionSort _ l

/-- A list whose members all satisfy `p` is pairwise related by any relation
that holds between any two `p`-elements. -/
theorem pairwise_of_all {α : Type} {R : α → α → Prop} {p : α → Bool} :
    ∀ (L : List α), (∀ x ∈ L, p x = true) →
      (∀ a b, p a = true → p b = true → R a b) → L.Pairwise R := by
  intro L
  induction L with
  | nil => intro _ _; exact List.Pairwise.nil
  | cons x t ih =>
    intro hall hR
    refine List.Pairwise.cons (fun y hy => ?_)
      (ih (fun y hy => hall y (List.mem_cons_of_mem x hy)) hR)
    exact hR x y (hall x (List.mem_cons_self x t))
      (hall y (List.mem_cons_of_mem x hy))

/-- Inserting an element into a sorted list keeps it sorted, assuming the
relation is total and transitive on a predicate satisfied by the element and
the list members. -/
theorem orderedInsert_pairwise_of {α : Type} (r : α → α → Prop) [DecidableRel r]
    (P : α → Prop) (htot : ∀ a b, P a → P b → r a b ∨ r b a)
    (htrans : ∀ a b c, P a → P b → P c → r a b → r b c → r a c) :
    ∀ (L : List α) (x : α), P x → (∀ y ∈ L, P y) → L.Pairwise r →
      (L.orderedInsert r x).Pairwise r := by
  intro L
  induction L with
  | nil => intro x _ _ _; simp
  | cons b t ih =>
    intro x hx hL hs
    have hPb : P b := hL b (List.mem_cons_self b t)
    by_cases hrb : r x b
    · simp only [List.orderedInsert, if_pos hrb]
      refine List.Pairwise.cons (fun y hy => ?_) hs
      rcases List.mem_cons.mp hy with h | h
      · rw [h]; exact hrb
      · exact htrans x b y hx hPb (hL y (List.mem_cons_of_mem b h)) hrb
          (List.rel_of_pairwise_cons hs h)
    · simp only [List.orderedInsert, if_neg hrb]
      have hrbx : r b x := (htot x b hx hPb).resolve_left hrb
      refine List.Pairwise.cons (fun y hy => ?_)
        (ih x hx (fun y hy => hL y (List.mem_cons_of_mem b hy)) hs.of_cons)
      rcases (List.mem_orderedInsert r).mp hy with h | h
      · rw [h]; exact hrbx
      · exact List.rel_of_pairwise_cons hs h

/-- The sort model produces a list that is pairwise ordered by the comparator,
assuming the comparator is consistent (total and transitive viewed as
`cmp a b ≤ 0`) on a predicate covering the input. -/
theorem jsSort_pairwise_of {α : Type} (cmp : α → α → Int) (P : α → Prop)
    (htot : ∀ a b, P a → P b → cmp a b ≤ 0 ∨ cmp b a ≤ 0)
    (htrans : ∀ a b c, P a → P b → P c →
      cmp a b ≤ 0 → cmp b c ≤ 0 → cmp a c ≤ 0) :
    ∀ (l : List α), (∀ x ∈ l, P x) →
      (jsSort cmp l).Pairwise (fun a b => cmp a b ≤ 0) := by
  intro l
  induction l with
  | nil => intro _; simp [jsSort]
  | cons x t ih =>
    intro hall
    have hstep : jsSort cmp (x :: t) =
        (jsSort cmp t).orderedInsert (fun a b => cmp a b ≤ 0) x := rfl
    rw [hstep]
    refine orderedInsert_pairwise_of _ P htot htrans _ x
      (hall x (List.mem_cons_self x t)) (fun y hy => ?_)
      (ih (fun y hy => hall y (List.mem_cons_of_mem x hy)))
    have : y ∈ t := (List.mem_insertionSort _).mp hy
    exact hall y (List.mem_cons_of_mem x this)

/-- Stability of the sort model, phrased through filters: the subsequence of
elements selected by any predicate on which the comparator never demands a
swap is preserved verbatim. -/
theorem jsSort_filter_eq {α : Type} (cmp : α → α → Int) (p : α → Bool)
    (hp : ∀ a b, p a = true → p b = true → cmp a b ≤ 0) (l : List α) :
    (jsSort cmp l).filter p = l.filter p := by
  have hpair : (l.filter p).Pairwise (fun a b => cmp a b ≤ 0) :=
    pairwise_of_all (l.filter p) (fun y hy => (List.mem_filter.mp hy).2) hp
  have hsub : (l.filter p).Sublist (jsSort cmp l) :=
    List.sublist_insertionSort hpair (List.filter_sublist l)
  have hsub2 : (l.filter p).Sublist ((jsSort cmp l).filter p) := by
    have h2 := hsub.filter p
    have h3 : List.filter (fun a => p a && p a) l = List.filter p l :=
      List.filter_congr (fun a _ => by cases hpa : p a <;> simp [hpa])
    rwa [List.filter_filter, h3] at h2
  have hperm : ((jsSort cmp l).filter p).Perm (l.filter p) :=
    (jsSort_perm cmp l).filter p
  exact (hsub2.eq_of_length hperm.length_eq.symm).symm

/-- The sort-key dispatch selects the score comparator for `"ai_match_score"`. -/
theorem cmpFor_score (now : Nat) : cmpFor "ai_match_score" now = cmpScore := by
  funext a b
  rfl

/-- C8: the score sort permutes the view, the output is non-increasing in
`ai_match_score` with a missing score read as 0, and the sort is stable:
records with equal (defaulted) scores keep their relative input order. -/
theorem score_sort_sorted_stable (now : Nat) (l : List Opp) :
    (sortOpportunities "ai_match_score" now l).Perm l ∧
    (sortOpportunities "ai_match_score" now l).Pairwise
      (fun a b => b.ai_match_score.getD 0 ≤ a.ai_match_score.getD 0) ∧
    ∀ s : Int,
      (sortOpportunities "ai_match_score" now l).filter
          (fun o => o.ai_match_score.getD 0 == s) =
        l.filter (fun o => o.ai_match_score.getD 0 == s) := by
  have hkey : sortOpportunities "ai_match_score" now l = jsSort cmpScore l := by
    unfold sortOpportunities
    rw [cmpFor_score]
  refine ⟨?_, ?_, ?_⟩
  · rw [hkey]; exact jsSort_perm _ _
  · rw [hkey]
    have hpair := jsSort_pairwise_of cmpScore (fun _ => True)
      (fun a b _ _ => by unfold cmpScore; omega)
      (fun a b c _ _ _ hab hbc => by unfold cmpScore at hab hbc ⊢; omega)
      l (fun x _ => trivial)
    refine hpair.imp ?_
    intro a b hle
    unfold cmpScore at hle
    omega
  · intro s
    rw [hkey]
    refine jsSort_filter_eq cmpScore _ (fun a b ha hb => ?_) l
    have ha2 : a.ai_match_score.getD 0 = s := by simpa using ha
    have hb2 : b.ai_match_score.getD 0 = s := by simpa using hb
    unfold cmpScore
    omega

/-- C9 counterexample: on ten records of which six left the prospect stage and
one is accepted, the code's overall conversion card shows
`round(100 * 1 / 10) = 10`, while the claimed formula
`accepted / left-prospect` gives `round(100 * 1 / 6) = 17` — the code divides
by the total record count, prospects included. -/
theorem overall_conversion_counterexample :
    scenarioTen.length = 10 ∧
    (scenarioTen.filter (fun o => !(o.status == "prospect"))).length = 6 ∧
    countStatus scenarioTen "accepted" = 1 ∧
    (updateSummaryCards scenarioTen).successRate = 10 ∧
    specOverallConversion scenarioTen = 17 ∧
    (updateSummaryCards scenarioTen).successRate ≠
      specOverallConversion scenarioTen := by
  refine ⟨rfl, rfl, rfl, rfl, rfl, by decide⟩

/-- C9 (amended): the success-rate card computes
`round(100 * count(accepted) / count(all records))` — the denominator is the
whole record set, not just the records that left the prospect stage — it is 0
exactly when there are no records, and it never exceeds 100. -/
theorem success_rate_uses_total_amended (l : List Opp) :
    (updateSummaryCards l).successRate =
      (if 0 < l.length then natRoundDiv (100 * countStatus l "accepted") l.length
       else 0) ∧
    (updateSummaryCards l).successRate ≤ 100 := by
  have hrate : (updateSummaryCards l).successRate =
      (if 0 < l.length then natRoundDiv (100 * countStatus l "accepted") l.length
       else 0) := rfl
  refine ⟨hrate, ?_⟩
  rw [hrate]
  by_cases h : 0 < l.length
  · rw [if_pos h]
    have ha : countStatus l "accepted" ≤ l.length := List.length_filter_le _ l
    unfold natRoundDiv
    have h2 : 2 * (100 * countStatus l "accepted") + l.length <
        101 * (2 * l.length) := by omega
    have h3 := (Nat.div_lt_iff_lt_mul (by omega : 0 < 2 * l.length)).mpr h2
    omega
  · rw [if_neg h]
    omega

/-- C10: under the `"all"` filter, `filteredOpportunities` aliases
`this.opportunities`, so the in-place sort of the view permutes the stored
record list itself: after `renderOpportunities` the persistent state holds the
sorted permutation of the records instead of their load order. -/
theorem render_all_filter_sorts_in_place (opps : List Opp) (sortKey : String)
    (now : Nat) :
    ((renderOpportunities ⟨opps, "all", sortKey⟩ now).1).opportunities =
      jsSort (cmpFor sortKey now) opps ∧
    (((renderOpportunities ⟨opps, "all", sortKey⟩ now).1).opportunities).Perm
      opps := by
  have h : ((renderOpportunities ⟨opps, "all", sortKey⟩ now).1).opportunities =
      jsSort (cmpFor sortKey now) opps := rfl
  exact ⟨h, h ▸ jsSort_perm (cmpFor sortKey now) opps⟩
